import Mathlib

/-
Verification of the plato repository: a shallow embedding of the data model
and operations of its query builder, storage handler, ingestion loaders,
cleaning helpers, analysis helpers, synthetic-data generator and
configuration store, together with theorems settling the behavioural
claims about them.

Python strings are modelled as lists of characters (`PyStr`), so that the
semantics of `str.strip` can be stated and proved by structural induction.
-/

namespace Plato

/-- Python strings, modelled as lists of characters. -/
abbrev PyStr := List Char

/-- The whitespace characters removed by the Python `str.strip` method
(space, tab, newline, carriage return, vertical tab, form feed). -/
def isPySpace (c : Char) : Bool :=
  c == ' ' || c == '\t' || c == '\n' || c == '\r' || c == Char.ofNat 11 || c == Char.ofNat 12

/-- Python `str.strip`: remove leading and trailing whitespace. -/
def pyStrip (s : PyStr) : PyStr :=
  (((s.dropWhile isPySpace).reverse.dropWhile isPySpace).reverse)

/-! ## Query builder (src/data_storage/query_builder.py)

The builder state is the single mutable string attribute `query`; each
method is a function from the old buffer (and its arguments) to the new
buffer.  Note that in the source, `select` ASSIGNS the buffer
(`self.query = f"SELECT {columns} "`) while every other clause method
appends (`self.query += ...`). -/

/-- `QueryBuilder.select`: `self.query = f"SELECT {columns} "` (assignment,
the previous buffer is discarded). -/
def select (_q : PyStr) (columns : PyStr) : PyStr :=
  "SELECT ".toList ++ columns ++ [' ']

/-- `QueryBuilder.from_table`: `self.query += f"FROM {table_name} "`. -/
def from_table (q : PyStr) (table_name : PyStr) : PyStr :=
  q ++ "FROM ".toList ++ table_name ++ [' ']

/-- `QueryBuilder.where`: `self.query += f"WHERE {condition} "`. -/
def whereClause (q : PyStr) (condition : PyStr) : PyStr :=
  q ++ "WHERE ".toList ++ condition ++ [' ']

/-- `QueryBuilder.group_by`: `self.query += f"GROUP BY {columns} "`. -/
def group_by (q : PyStr) (columns : PyStr) : PyStr :=
  q ++ "GROUP BY ".toList ++ columns ++ [' ']

/-- `QueryBuilder.having`: `self.query += f"HAVING {condition} "`. -/
def having (q : PyStr) (condition : PyStr) : PyStr :=
  q ++ "HAVING ".toList ++ condition ++ [' ']

/-- `QueryBuilder.order_by`: `self.query += f"ORDER BY {columns} {order} "`. -/
def order_by (q : PyStr) (columns : PyStr) (ord : PyStr) : PyStr :=
  q ++ "ORDER BY ".toList ++ columns ++ [' '] ++ ord ++ [' ']

/-- `QueryBuilder.build`: `final_query = self.query.strip(); self.query = ""`;
returns the pair (returned string, new buffer). -/
def build (q : PyStr) : PyStr × PyStr :=
  (pyStrip q, [])

/-- One chained call on the builder, as data: which method was called and
with which caller-supplied argument strings. -/
inductive Call
  | select (columns : PyStr)
  | from_table (table_name : PyStr)
  | whereC (condition : PyStr)
  | group_by (columns : PyStr)
  | having (condition : PyStr)
  | order_by (columns : PyStr) (ord : PyStr)

/-- Run one chained call against the current buffer. -/
def applyCall (q : PyStr) : Call → PyStr
  | .select c => select q c
  | .from_table t => from_table q t
  | .whereC c => whereClause q c
  | .group_by c => group_by q c
  | .having c => having q c
  | .order_by c o => order_by q c o

/-- Run a sequence of chained calls against the builder, left to right. -/
def applyCalls (cs : List Call) (q : PyStr) : PyStr :=
  cs.foldl applyCall q

/-- Whether a call is a `select` (the one method that assigns instead of
appending). -/
def Call.isSelect : Call → Bool
  | .select _ => true
  | _ => false

/-- The clause a call contributes: its keyword plus the caller-supplied
text, without the trailing separator space. -/
def clause : Call → PyStr
  | .select c => "SELECT ".toList ++ c
  | .from_table t => "FROM ".toList ++ t
  | .whereC c => "WHERE ".toList ++ c
  | .group_by c => "GROUP BY ".toList ++ c
  | .having c => "HAVING ".toList ++ c
  | .order_by c o => "ORDER BY ".toList ++ c ++ [' '] ++ o

/-- Concatenation of a list of strings separated by single spaces. -/
def sepSpace : List PyStr → PyStr
  | [] => []
  | [c] => c
  | c :: cs => c ++ ' ' :: sepSpace cs

/-- True when the string is nonempty and its final character is not
whitespace. -/
def endsNonSpace (s : PyStr) : Bool :=
  match s.getLast? with
  | some c => !(isPySpace c)
  | none => false

/-- Every caller-supplied argument string of the call ends in a
non-whitespace character. -/
def Call.textOk : Call → Bool
  | .select c => endsNonSpace c
  | .from_table t => endsNonSpace t
  | .whereC c => endsNonSpace c
  | .group_by c => endsNonSpace c
  | .having c => endsNonSpace c
  | .order_by c o => endsNonSpace c && endsNonSpace o

/-- A sample call sequence, for concrete evaluation of the theorems. -/
def demoCalls : List Call :=
  [Call.select "name, age".toList, Call.from_table "users".toList,
   Call.whereC "age > 18".toList]

/-! ## Storage handler (src/data_storage/sqlite_handler.py) and ingestion
loaders (src/data_ingestion/csv_loader.py, crosstab_loader.py)

A table is a list of rows, a database maps table names to tables.
`save_dataframe_to_db` calls `df.to_sql(..., if_exists="replace", ...)`:
it REPLACES any existing table of that name with the given rows. -/

/-- A row of a tabular dataset (a tuple of integer-coded values). -/
abbrev Row := List Int

/-- A database table: a list of rows. -/
abbrev Table := List Row

/-- The database: an association of table names to tables. -/
abbrev DB := List (String × Table)

/-- Bind a table name to the given rows, replacing any existing binding of
that name (the `if_exists="replace"` semantics of `to_sql`). -/
def dbSet : DB → String → Table → DB
  | [], t, rows => [(t, rows)]
  | (n, r) :: rest, t, rows =>
    if n = t then (t, rows) :: rest else (n, r) :: dbSet rest t rows

/-- `SQLiteHandler.save_dataframe_to_db`: persists the dataset under the
table name with replace semantics (errors are logged and swallowed; the
happy path is modelled). -/
def save_dataframe_to_db (df : Table) (table_name : String) (db : DB) : DB :=
  dbSet db table_name df

/-- `pd.read_csv(file_path, chunksize=n)`: split the rows of the file into
consecutive chunks of `n` rows (the last chunk may be shorter).  A chunk
size of zero is invalid in pandas; it is clamped to one here so the
recursion terminates. -/
def chunksOf (n : Nat) (rows : Table) : List Table :=
  match rows with
  | [] => []
  | r :: rest => ((r :: rest).take (max n 1)) :: chunksOf n ((r :: rest).drop (max n 1))
termination_by rows.length
decreasing_by simp only [List.length_drop, List.length_cons]; omega

/-- The `save_to_db=True` path of `CSVLoader.load_csv`: read the file in
chunks of `chunk_size` rows and call `save_dataframe_to_db` on each chunk
in turn. -/
def load_csv_save (fileRows : Table) (chunk_size : Nat) (table_name : String)
    (db : DB) : DB :=
  (chunksOf chunk_size fileRows).foldl
    (fun d chunk => save_dataframe_to_db chunk table_name d) db

/-- Python truthiness of the optional `table_name` argument (`None` and the
empty string are falsy). -/
def pyTruthy : Option String → Bool
  | none => false
  | some s => !(s.isEmpty)

/-- The `save_to_db=True, sheet_name=None` loop of
`CrosstabLoader.load_crosstab`: for each sheet,
`table_name = name if not table_name else table_name` and then
`save_dataframe_to_db(df, table_name)`.  The reassigned `table_name`
variable is carried over to the next iteration, exactly as in the source. -/
def save_all_sheets : Option String → List (String × Table) → DB → DB
  | _, [], db => db
  | table_name, (name, df) :: rest, db =>
    let tn := if pyTruthy table_name then table_name else some name
    save_all_sheets tn rest (save_dataframe_to_db df (tn.getD "") db)

/-- `SQLiteHandler.execute_query`: the body runs inside `try`; a backend
failure is caught, logged, and the method falls through returning `None`,
while on success the fetched rows are returned. -/
def execute_query (backend : Except String (List Row)) : Option (List Row) :=
  match backend with
  | Except.ok rows => some rows
  | Except.error _ => none

/-- `SQLiteHandler.load_table_to_dataframe`: `pd.read_sql_table` runs
inside `try`; on failure the error is logged and `None` is returned, on
success the loaded dataset is returned. -/
def load_table_to_dataframe (backend : Except String Table) : Option Table :=
  match backend with
  | Except.ok df => some df
  | Except.error _ => none

/-! ## Tabular datasets and DataCleaner.fill_missing_values
(src/data_transformation/cleaner.py)

A dataset column is either numeric (rational-valued, `NaN` holes modelled
as `none`) or textual; a dataframe is an ordered association of column
names to columns. -/

/-- A dataset column: numeric values or text values, with missing entries. -/
inductive Column
  | numeric (vals : List (Option ℚ))
  | text (vals : List (Option String))
deriving DecidableEq

/-- A tabular dataset: ordered named columns. -/
abbrev DataFrame := List (String × Column)

/-- The column names of a dataframe (`self.df.columns`). -/
def dfColumns (df : DataFrame) : List String := df.map (fun p => p.1)

/-- `x.mean()` of a pandas column: the mean of the non-missing values, or
`NaN` (here `none`) when every value is missing. -/
def colMean (vs : List (Option ℚ)) : Option ℚ :=
  let present := vs.filterMap id
  if present.length = 0 then none
  else some (present.sum / (present.length : ℚ))

/-- The per-column lambda of `fill_missing_values` for the mean/median
branch: `x.fillna(x.mean()) if pd.api.types.is_numeric_dtype(x) else x`.
Note the source fills with the MEAN in this branch for both strategies. -/
def fillNumericWithMean : Column → Column
  | Column.numeric vs =>
    match colMean vs with
    | none => Column.numeric vs
    | some m => Column.numeric (vs.map (fun x => some (x.getD m)))
  | Column.text vs => Column.text vs

/-- Apply the fill lambda to the selected columns of the dataframe
(`self.df[columns] = self.df[columns].apply(...)`). -/
def fillSelected (sel : List String) (df : DataFrame) : DataFrame :=
  df.map (fun p => if p.1 ∈ sel then (p.1, fillNumericWithMean p.2) else p)

/-- The two strategies of the `if strategy in ["mean", "median"]` branch of
`DataCleaner.fill_missing_values`.  The mode and literal branches of the
source dispatch are outside the claims and are not embedded. -/
inductive FillStrategy
  | mean
  | median
deriving DecidableEq

/-- `DataCleaner.fill_missing_values(strategy, columns)` for the mean and
median strategies: `columns=None` selects every column, and the source
sends BOTH strategies through the same branch, which applies
`fillNumericWithMean` to each selected column. -/
def fill_missing_values (strategy : FillStrategy) (columns : Option (List String))
    (df : DataFrame) : DataFrame :=
  let cols := match columns with
    | none => dfColumns df
    | some cs => cs
  match strategy with
  | FillStrategy.mean => fillSelected cols df
  | FillStrategy.median => fillSelected cols df

/-- Insert into a sorted list of rationals. -/
def insertSorted (x : ℚ) : List ℚ → List ℚ
  | [] => [x]
  | y :: ys => if x ≤ y then x :: y :: ys else y :: insertSorted x ys

/-- Insertion sort on rationals. -/
def sortQ : List ℚ → List ℚ
  | [] => []
  | x :: xs => insertSorted x (sortQ xs)

/-- Modelled from the spec words of the claim: the median of the
non-missing values of a numeric column (the middle element of the sorted
values, or the average of the two middle elements), which the claim says
the median strategy fills with. -/
def medianOfPresent (vs : List (Option ℚ)) : Option ℚ :=
  let s := sortQ (vs.filterMap id)
  if s.length = 0 then none
  else if s.length % 2 = 1 then some (s.getD (s.length / 2) 0)
  else some ((s.getD (s.length / 2 - 1) 0 + s.getD (s.length / 2) 0) / 2)

/-- A column with no missing values. -/
def noMissing : Column → Bool
  | Column.numeric vs => vs.all (fun x => x.isSome)
  | Column.text vs => vs.all (fun x => x.isSome)

/-! ## Helper objects and the caller dataset (C8)

The constructors of DataCleaner, DataTransformer, QualitativeAnalysis and
QuantitativeAnalysis all run `self.df = df.copy()`: they allocate a fresh
cell holding a copy of the caller dataset, and every chained mutator
writes only the helper cell (`self.df = ...` or in-place on `self.df`).
The heap is modelled as a memory of dataframes indexed by references. -/

/-- One chained mutator call on a helper object.  `custom` is the
`apply_custom_transform(columns, func)` method of DataTransformer, which
applies an arbitrary caller-supplied function to the wrapped dataframe; it
also stands for the other delegations to external routines. -/
inductive HelperOp
  | fillMean (columns : Option (List String))
  | fillMedian (columns : Option (List String))
  | custom (f : DataFrame → DataFrame)

/-- The dataframe transformation a mutator performs on the helper cell. -/
def applyHelperOp : HelperOp → DataFrame → DataFrame
  | HelperOp.fillMean cols, df => fill_missing_values FillStrategy.mean cols df
  | HelperOp.fillMedian cols, df => fill_missing_values FillStrategy.median cols df
  | HelperOp.custom f, df => f df

/-- A heap of dataframe objects: a memory and the next fresh reference. -/
structure Heap where
  mem : Nat → DataFrame
  next : Nat

/-- The common constructor (`self.df = df.copy()`): allocate a fresh cell
holding a copy of the dataset at the caller reference `r`; returns the new
heap and the helper reference. -/
def helperInit (h : Heap) (r : Nat) : Heap × Nat :=
  (⟨Function.update h.mem h.next (h.mem r), h.next + 1⟩, h.next)

/-- One chained mutator call: overwrite the helper cell with the
transformed dataframe.  No other cell is written. -/
def helperStep (hp : Heap) (ref : Nat) (op : HelperOp) : Heap :=
  ⟨Function.update hp.mem ref (applyHelperOp op (hp.mem ref)), hp.next⟩

/-- Run a sequence of chained mutator calls on the helper object. -/
def runHelperOps (ops : List HelperOp) (hp : Heap) (ref : Nat) : Heap :=
  ops.foldl (fun s op => helperStep s ref op) hp

/-- A concrete heap for the witness: one caller dataset at reference 0. -/
def demoHeap : Heap :=
  ⟨fun _ => [("c", Column.numeric [some 1, none])], 1⟩

/-! ## Synthetic data generator (src/generators/generate_data.py) and the
string-tag dispatches of the analysis helpers (src/data_analysis/quant.py,
qual.py)

The value-generation primitives (random draws, the fake-data provider,
the statistical tests, the vectorizers) are external collaborators; they
are passed in as parameters and the embedded functions model the dispatch
on the string tag and the error branch. -/

/-- The options mapping of a column specification (passed through to the
generation primitives). -/
abbrev Options := List (String × String)

/-- The external value-generation primitives used by the supported type
tags, one field per primitive, each drawing a value per row index. -/
structure FakeProvider (α : Type) where
  randint : Options → Nat → α
  uniform : Options → Nat → α
  word : Nat → α
  date_between : Options → Nat → α
  choice : Options → Nat → α
  boolChoice : Nat → α
  email : Nat → α
  phone_number : Nat → α
  address : Nat → α
  personName : Nat → α
  company : Nat → α
  textValue : Options → Nat → α

/-- The supported type tags of `_generate_column_data`, in dispatch order. -/
def supported_types : List String :=
  ["int", "float", "str", "date", "category", "bool", "email", "phone",
   "address", "name", "company", "text"]

/-- `DataGenerator._generate_column_data`: dispatch on the declared type
tag; a tag outside the supported list raises
`ValueError(f"Unsupported data type: {data_type}")`. -/
def generate_column_data {α : Type} (p : FakeProvider α) (num_rows : Nat)
    (data_type : String) (options : Options) : Except String (List α) :=
  if data_type = "int" then Except.ok ((List.range num_rows).map (p.randint options))
  else if data_type = "float" then Except.ok ((List.range num_rows).map (p.uniform options))
  else if data_type = "str" then Except.ok ((List.range num_rows).map p.word)
  else if data_type = "date" then Except.ok ((List.range num_rows).map (p.date_between options))
  else if data_type = "category" then Except.ok ((List.range num_rows).map (p.choice options))
  else if data_type = "bool" then Except.ok ((List.range num_rows).map p.boolChoice)
  else if data_type = "email" then Except.ok ((List.range num_rows).map p.email)
  else if data_type = "phone" then Except.ok ((List.range num_rows).map p.phone_number)
  else if data_type = "address" then Except.ok ((List.range num_rows).map p.address)
  else if data_type = "name" then Except.ok ((List.range num_rows).map p.personName)
  else if data_type = "company" then Except.ok ((List.range num_rows).map p.company)
  else if data_type = "text" then Except.ok ((List.range num_rows).map (p.textValue options))
  else Except.error ("Unsupported data type: " ++ data_type)

/-- `DataGenerator.generate`: materialize each declared column in order;
an unsupported type raises out of the loop, so no dataset is returned. -/
def generate {α : Type} (p : FakeProvider α) (num_rows : Nat) :
    List (String × String × Options) → Except String (List (String × List α))
  | [] => Except.ok []
  | (n, t, o) :: rest =>
    match generate_column_data p num_rows t o with
    | Except.error e => Except.error e
    | Except.ok col =>
      match generate p num_rows rest with
      | Except.error e => Except.error e
      | Except.ok cols => Except.ok ((n, col) :: cols)

/-- `QuantitativeAnalysis.hypothesis_testing`: dispatch on the test name;
the statistical routines are external parameters.  An unknown test name
raises `ValueError(f"Unknown test: {test}")`. -/
def hypothesis_testing {α : Type} (ttest anova : String → String → α × α)
    (column1 column2 : String) (test : String) : Except String (α × α) :=
  if test = "t-test" then Except.ok (ttest column1 column2)
  else if test = "anova" then Except.ok (anova column1 column2)
  else Except.error ("Unknown test: " ++ test)

/-- `QualitativeAnalysis.keyword_extraction`: dispatch on the method name;
the vectorizer pipelines are external parameters.  An unknown method name
raises `ValueError(f"Unknown method: {method}")`. -/
def keyword_extraction {α : Type} (tfidfScores countScores : String → α)
    (text_column : String) (method : String) : Except String α :=
  if method = "tfidf" then Except.ok (tfidfScores text_column)
  else if method = "count" then Except.ok (countScores text_column)
  else Except.error ("Unknown method: " ++ method)

/-- A provider with trivial primitives, for the witness. -/
def unitProvider : FakeProvider Unit :=
  ⟨fun _ _ => (), fun _ _ => (), fun _ => (), fun _ _ => (), fun _ _ => (),
   fun _ => (), fun _ => (), fun _ => (), fun _ => (), fun _ => (), fun _ => (),
   fun _ _ => ()⟩

/-! ## Configuration store (src/utils/config.py) -/

/-- `Config.get(section, key, default)`:
`self.config_data.get(section, {}).get(key, default)`.  The configuration
document is an association of section names to key/value associations. -/
def Config.get {α : Type} (config_data : List (String × List (String × α)))
    (sect key : String) (dflt : α) : α :=
  (((config_data.lookup sect).getD []).lookup key).getD dflt

/-- A concrete configuration document, for the witness. -/
def demoConfig : List (String × List (String × String)) :=
  [("logging", [("level", "INFO")]), ("database", [("name", "plato-broken.db")])]

/-! ## Theorems -/

/-! ### Lemmas about the query builder buffer -/

lemma mem_of_getLast?_eq {α : Type} (l : List α) (a : α) (h : l.getLast? = some a) :
    a ∈ l := by
  obtain ⟨hne, rfl⟩ := List.mem_getLast?_eq_getLast (Option.mem_def.mpr h)
  exact List.getLast_mem hne

lemma applyCall_empty (c : Call) : applyCall [] c = clause c ++ [' '] := by
  cases c <;>
    simp [applyCall, select, from_table, whereClause, group_by, having, order_by,
      clause, List.append_assoc]

lemma applyCall_of_not_select (q : PyStr) (c : Call) (h : c.isSelect = false) :
    applyCall q c = q ++ (clause c ++ [' ']) := by
  cases c <;>
    simp_all [applyCall, Call.isSelect, select, from_table, whereClause, group_by,
      having, order_by, clause, List.append_assoc]

lemma applyCalls_no_select (cs : List Call) (h : ∀ c ∈ cs, c.isSelect = false)
    (q : PyStr) :
    applyCalls cs q = q ++ (cs.map (fun c => clause c ++ [' '])).flatten := by
  induction cs generalizing q with
  | nil => simp [applyCalls]
  | cons c rest ih =>
    have hc : c.isSelect = false := h c (by simp)
    have hrest : ∀ d ∈ rest, d.isSelect = false := fun d hd => h d (by simp [hd])
    calc applyCalls (c :: rest) q = applyCalls rest (applyCall q c) := rfl
    _ = applyCall q c ++ (rest.map (fun c => clause c ++ [' '])).flatten := ih hrest _
    _ = q ++ ((c :: rest).map (fun c => clause c ++ [' '])).flatten := by
        rw [applyCall_of_not_select q c hc]; simp [List.append_assoc]

lemma applyCalls_buffer (cs : List Call) (h : ∀ c ∈ cs.drop 1, c.isSelect = false) :
    applyCalls cs [] = (cs.map (fun c => clause c ++ [' '])).flatten := by
  cases cs with
  | nil => rfl
  | cons c rest =>
    have hrest : ∀ d ∈ rest, d.isSelect = false := by simpa using h
    calc applyCalls (c :: rest) [] = applyCalls rest (applyCall [] c) := rfl
    _ = applyCall [] c ++ (rest.map (fun c => clause c ++ [' '])).flatten :=
        applyCalls_no_select rest hrest _
    _ = _ := by rw [applyCall_empty]; simp

lemma flatten_spaced (xs : List PyStr) (h : xs ≠ []) :
    (xs.map (fun s => s ++ [' '])).flatten = sepSpace xs ++ [' '] := by
  induction xs with
  | nil => simp at h
  | cons x rest ih =>
    cases rest with
    | nil => simp [sepSpace]
    | cons y t =>
      have hrec := ih (by simp)
      show (x ++ [' ']) ++ (List.map (fun s => s ++ [' ']) (y :: t)).flatten
          = sepSpace (x :: y :: t) ++ [' ']
      rw [hrec]
      show (x ++ [' ']) ++ (sepSpace (y :: t) ++ [' '])
          = (x ++ ' ' :: sepSpace (y :: t)) ++ [' ']
      simp [List.append_assoc]

lemma pyStrip_append_space (x : PyStr) (a b : Char)
    (ha : x.head? = some a) (hsa : isPySpace a = false)
    (hb : x.getLast? = some b) (hsb : isPySpace b = false) :
    pyStrip (x ++ [' ']) = x := by
  have h1 : List.dropWhile isPySpace (x ++ [' ']) = x ++ [' '] := by
    cases x with
    | nil => simp at ha
    | cons u t =>
      have hu : u = a := by simpa using ha
      subst hu
      simp [List.dropWhile_cons, hsa]
  have h2 : x.reverse = b :: x.reverse.tail := by
    have hhr : x.reverse.head? = some b := by rw [List.head?_reverse]; exact hb
    cases hx : x.reverse with
    | nil => rw [hx] at hhr; simp at hhr
    | cons u t =>
      rw [hx] at hhr
      simp only [List.head?_cons, Option.some.injEq] at hhr
      simp [hhr]
  have h3 : List.dropWhile isPySpace x.reverse = x.reverse := by
    rw [h2]
    simp [List.dropWhile_cons, hsb]
  unfold pyStrip
  rw [h1, List.reverse_append]
  simp only [List.reverse_cons, List.reverse_nil, List.nil_append, List.singleton_append]
  rw [List.dropWhile_cons]
  simp only [show isPySpace ' ' = true from by decide, if_true]
  rw [h3, List.reverse_reverse]

lemma clause_head (c : Call) :
    ∃ a, (clause c).head? = some a ∧ isPySpace a = false := by
  cases c with
  | select s => exact ⟨'S', rfl, by decide⟩
  | from_table s => exact ⟨'F', rfl, by decide⟩
  | whereC s => exact ⟨'W', rfl, by decide⟩
  | group_by s => exact ⟨'G', rfl, by decide⟩
  | having s => exact ⟨'H', rfl, by decide⟩
  | order_by s o => exact ⟨'O', rfl, by decide⟩

lemma endsNonSpace_getLast (s : PyStr) (h : endsNonSpace s = true) :
    ∃ b, s.getLast? = some b ∧ isPySpace b = false := by
  unfold endsNonSpace at h
  cases hs : s.getLast? with
  | none => rw [hs] at h; simp at h
  | some b => rw [hs] at h; exact ⟨b, rfl, by simpa using h⟩

lemma getLast?_append_text (kw s : PyStr) (h : endsNonSpace s = true) :
    ∃ b, (kw ++ s).getLast? = some b ∧ isPySpace b = false := by
  obtain ⟨b, hb, hsb⟩ := endsNonSpace_getLast s h
  have hne : s ≠ [] := by intro h0; rw [h0] at hb; simp at hb
  exact ⟨b, by rw [List.getLast?_append_of_ne_nil _ hne]; exact hb, hsb⟩

lemma clause_last (c : Call) (h : c.textOk = true) :
    ∃ b, (clause c).getLast? = some b ∧ isPySpace b = false := by
  cases c with
  | select s => exact getLast?_append_text _ s h
  | from_table s => exact getLast?_append_text _ s h
  | whereC s => exact getLast?_append_text _ s h
  | group_by s => exact getLast?_append_text _ s h
  | having s => exact getLast?_append_text _ s h
  | order_by s o =>
    have ho : endsNonSpace o = true := by
      have h2 := h
      simp only [Call.textOk, Bool.and_eq_true] at h2
      exact h2.2
    exact getLast?_append_text ("ORDER BY ".toList ++ s ++ [' ']) o ho

lemma sepSpace_head (x : PyStr) (xs : List PyStr) (a : Char) (hx : x.head? = some a) :
    (sepSpace (x :: xs)).head? = some a := by
  cases x with
  | nil => simp at hx
  | cons u t =>
    have hu : u = a := by simpa using hx
    subst hu
    cases xs with
    | nil => simp [sepSpace]
    | cons y ys => simp [sepSpace]

lemma sepSpace_last (xs : List PyStr) (x lc : PyStr) (b : Char)
    (h1 : (x :: xs).getLast? = some lc) (h2 : lc.getLast? = some b) :
    (sepSpace (x :: xs)).getLast? = some b := by
  induction xs generalizing x with
  | nil =>
    have hx : x = lc := by simpa using h1
    subst hx
    simpa [sepSpace] using h2
  | cons y ys ih =>
    have h1a : (y :: ys).getLast? = some lc := by
      rw [← List.getLast?_cons_cons (a := x)]; exact h1
    have hy := ih y h1a
    have hne : sepSpace (y :: ys) ≠ [] := by
      intro h0; rw [h0] at hy; simp at hy
    calc (sepSpace (x :: y :: ys)).getLast?
        = (x ++ ' ' :: sepSpace (y :: ys)).getLast? := rfl
    _ = (' ' :: sepSpace (y :: ys)).getLast? :=
        List.getLast?_append_of_ne_nil _ (by simp)
    _ = ([' '] ++ sepSpace (y :: ys)).getLast? := rfl
    _ = (sepSpace (y :: ys)).getLast? := List.getLast?_append_of_ne_nil _ hne
    _ = some b := hy

lemma head?_dropWhile_not (l : PyStr) (a : Char)
    (h : (l.dropWhile isPySpace).head? = some a) : isPySpace a = false := by
  induction l with
  | nil => simp [List.dropWhile] at h
  | cons x t ih =>
    rw [List.dropWhile_cons] at h
    by_cases hx : isPySpace x = true
    · rw [if_pos hx] at h; exact ih h
    · rw [if_neg hx] at h
      have hax : x = a := by simpa using h
      subst hax
      simpa using hx

lemma getLast?_dropWhile (l : PyStr) (h : l.dropWhile isPySpace ≠ []) :
    (l.dropWhile isPySpace).getLast? = l.getLast? := by
  induction l with
  | nil => simp [List.dropWhile] at h
  | cons x t ih =>
    rw [List.dropWhile_cons] at h ⊢
    by_cases hx : isPySpace x = true
    · rw [if_pos hx] at h ⊢
      have ht : t ≠ [] := by
        intro h0; subst h0; simp [List.dropWhile] at h
      rw [ih h]
      exact (List.getLast?_append_of_ne_nil [x] ht).symm
    · rw [if_neg hx]

/-- C1 (amended): for every sequence of chained calls in which `select`
occurs only as the first call and every caller-supplied text ends in a
non-whitespace character, `build` returns the clauses concatenated in call
order, each clause being its keyword plus the caller-supplied text
verbatim, separated by single spaces, with no trailing whitespace.
(In the source, `select` assigns the buffer instead of appending, so a
`select` after any other call discards the earlier clauses.) -/
theorem query_builder_build_concat (cs : List Call)
    (hsel : ∀ c ∈ cs.drop 1, c.isSelect = false)
    (htext : ∀ c ∈ cs, c.textOk = true) :
    (build (applyCalls cs [])).1 = sepSpace (cs.map clause) ∧
    ∀ b, (build (applyCalls cs [])).1.getLast? = some b → isPySpace b = false := by
  cases cs with
  | nil =>
    refine ⟨rfl, ?_⟩
    intro b hb
    simp [build, pyStrip, applyCalls, List.dropWhile] at hb
  | cons c rest =>
    obtain ⟨a, ha, hsa⟩ := clause_head c
    obtain ⟨lc, hlc⟩ : ∃ lc, (c :: rest).getLast? = some lc := by
      cases hz : (c :: rest).getLast? with
      | none => exact absurd (List.getLast?_eq_none_iff.mp hz) (by simp)
      | some lc => exact ⟨lc, rfl⟩
    have hmem : lc ∈ c :: rest := mem_of_getLast?_eq _ _ hlc
    obtain ⟨b, hbl, hsb⟩ := clause_last lc (htext lc hmem)
    have hmap_last : ((c :: rest).map clause).getLast? = some (clause lc) := by
      rw [List.getLast?_map, hlc]; rfl
    have hsep_last : (sepSpace ((c :: rest).map clause)).getLast? = some b :=
      sepSpace_last (rest.map clause) (clause c) (clause lc) b hmap_last hbl
    have hsep_head : (sepSpace ((c :: rest).map clause)).head? = some a :=
      sepSpace_head (clause c) (rest.map clause) a ha
    have hbuf : applyCalls (c :: rest) []
        = sepSpace ((c :: rest).map clause) ++ [' '] := by
      rw [applyCalls_buffer _ hsel]
      have hmm : (c :: rest).map (fun d => clause d ++ [' '])
          = ((c :: rest).map clause).map (fun s => s ++ [' ']) := by
        rw [List.map_map]; rfl
      rw [hmm, flatten_spaced _ (by simp)]
    have hmain : (build (applyCalls (c :: rest) [])).1
        = sepSpace ((c :: rest).map clause) := by
      show pyStrip (applyCalls (c :: rest) []) = _
      rw [hbuf]
      exact pyStrip_append_space _ a b hsep_head hsa hsep_last hsb
    refine ⟨hmain, ?_⟩
    intro b0 hb0
    rw [hmain, hsep_last] at hb0
    exact (Option.some.inj hb0) ▸ hsb

/-- Witness for the amended C1 at a concrete call sequence. -/
theorem query_builder_build_concat_witness :
    (∀ c ∈ demoCalls.drop 1, c.isSelect = false) ∧
    (∀ c ∈ demoCalls, c.textOk = true) ∧
    (build (applyCalls demoCalls [])).1 = sepSpace (demoCalls.map clause) :=
  ⟨by decide, by decide,
    (query_builder_build_concat demoCalls (by decide) (by decide)).1⟩

/-- C1 counterexample: a `from_table` call followed by a `select` call does
not yield the two clauses in call order; `select` assigns the buffer, so
the FROM clause is discarded. -/
theorem query_builder_select_discards :
    (build (applyCalls
        [Call.from_table "users".toList, Call.select "name".toList] [])).1
      = "SELECT name".toList ∧
    (build (applyCalls
        [Call.from_table "users".toList, Call.select "name".toList] [])).1
      ≠ sepSpace
          (([Call.from_table "users".toList, Call.select "name".toList]).map clause) := by
  exact ⟨by decide, by decide⟩

/-- C6: `build` returns the accumulated buffer with surrounding whitespace
trimmed (the returned string neither starts nor ends with a whitespace
character) and resets the internal buffer to the empty string, so a second
`build` with no intervening clause calls returns the empty string. -/
theorem build_trims_and_resets (q : PyStr) :
    (build q).1 = pyStrip q ∧ (build q).2 = [] ∧ (build (build q).2).1 = [] ∧
    (∀ a, (build q).1.head? = some a → isPySpace a = false) ∧
    (∀ b, (build q).1.getLast? = some b → isPySpace b = false) := by
  refine ⟨rfl, rfl, rfl, ?_, ?_⟩
  · intro a hha
    have h1 : (pyStrip q).head? = some a := hha
    rw [pyStrip, List.head?_reverse] at h1
    have hne : (q.dropWhile isPySpace).reverse.dropWhile isPySpace ≠ [] := by
      intro h0; rw [h0] at h1; simp at h1
    rw [getLast?_dropWhile _ hne, List.getLast?_reverse] at h1
    exact head?_dropWhile_not _ _ h1
  · intro b hhb
    have h1 : (pyStrip q).getLast? = some b := hhb
    rw [pyStrip, List.getLast?_reverse] at h1
    exact head?_dropWhile_not _ _ h1

/-- Witness for C6 at a concrete buffer. -/
theorem build_trims_and_resets_witness :
    (build "  SELECT 1  ".toList).1 = pyStrip "  SELECT 1  ".toList ∧
    (build "  SELECT 1  ".toList).2 = [] ∧
    (build (build "  SELECT 1  ".toList).2).1 = [] ∧
    (∀ a, (build "  SELECT 1  ".toList).1.head? = some a → isPySpace a = false) ∧
    (∀ b, (build "  SELECT 1  ".toList).1.getLast? = some b → isPySpace b = false) :=
  build_trims_and_resets "  SELECT 1  ".toList

/-! ### Storage and ingestion theorems -/

/-- C2 failing input: a two-row file loaded with chunk size one.  Each
chunk is saved with replace semantics (`if_exists="replace"`), so after
the call the table holds only the rows of the LAST chunk, not every row
of the file as the claim states. -/
theorem load_csv_chunked_loses_rows :
    (load_csv_save [[1], [2]] 1 "t" []).lookup "t" = some [[2]] ∧
    (some [[2]] : Option Table) ≠ some [[1], [2]] := by
  constructor
  · simp [load_csv_save, chunksOf, save_dataframe_to_db, dbSet]
  · decide

/-- C3 failing input: a workbook with two sheets S1 and S2, loaded with no
sheet name, no table name and `save_to_db=True`.  The reassigned
`table_name` variable persists across loop iterations, so every sheet is
saved under the first sheet name, and the replace semantics of the save
leave only the LAST sheet data there; no table named S2 exists. -/
theorem crosstab_all_sheets_one_table :
    save_all_sheets none [("S1", [[1]]), ("S2", [[2]])] [] = [("S1", [[2]])] ∧
    (save_all_sheets none [("S1", [[1]]), ("S2", [[2]])] []).lookup "S2" = none := by
  constructor
  · rfl
  · rfl

/-- C7: `execute_query` and `load_table_to_dataframe` never raise: a
backend failure is logged and swallowed and the call returns an absent
result, while on success `execute_query` returns the fetched rows and
`load_table_to_dataframe` returns the loaded dataset. -/
theorem storage_failures_swallowed :
    (∀ e : String, execute_query (Except.error e) = none) ∧
    (∀ rows : List Row, execute_query (Except.ok rows) = some rows) ∧
    (∀ e : String, load_table_to_dataframe (Except.error e) = none) ∧
    (∀ df : Table, load_table_to_dataframe (Except.ok df) = some df) :=
  ⟨fun _ => rfl, fun _ => rfl, fun _ => rfl, fun _ => rfl⟩

/-! ### Cleaner theorems -/

/-- C4 failing input: the median strategy on the numeric column
[1, 2, 9, missing].  The median of the non-missing values is 2, but the
source sends the median strategy through the shared mean/median branch,
which fills with the MEAN, namely 4. -/
theorem fill_median_uses_mean :
    fill_missing_values FillStrategy.median none
        [("c", Column.numeric [some 1, some 2, some 9, none])]
      = [("c", Column.numeric [some 1, some 2, some 9, some 4])] ∧
    medianOfPresent [some 1, some 2, some 9, none] = some 2 ∧
    (4 : ℚ) ≠ 2 := by
  refine ⟨?_, ?_, by norm_num⟩
  · have hm : colMean [some 1, some 2, some 9, none] = some 4 := by
      norm_num [colMean, List.filterMap]
    simp [fill_missing_values, fillSelected, dfColumns, fillNumericWithMean, hm]
  · norm_num [medianOfPresent, sortQ, insertSorted, List.filterMap]

lemma fillSelected_lookup_all (df : DataFrame) (sel : List String)
    (hsel : ∀ p ∈ df, p.1 ∈ sel) (n : String) :
    (fillSelected sel df).lookup n = (df.lookup n).map fillNumericWithMean := by
  induction df with
  | nil => rfl
  | cons p rest ih =>
    have hp : p.1 ∈ sel := hsel p (by simp)
    have hrest : ∀ q ∈ rest, q.1 ∈ sel := fun q hq => hsel q (by simp [hq])
    show ((if p.1 ∈ sel then (p.1, fillNumericWithMean p.2) else p) ::
        fillSelected sel rest).lookup n = _
    rw [if_pos hp]
    by_cases hn : n = p.1
    · subst hn; simp [List.lookup]
    · have hbeq : (n == p.1) = false := beq_false_of_ne hn
      simp [List.lookup, hbeq, ih hrest]

/-- C5: filling with the mean strategy on a dataframe whose column `n` is
numeric with exactly one missing value (and at least one present value)
leaves no missing values in that column, and every hole is filled with the
mean of the non-missing values. -/
theorem fill_mean_fills_with_mean (df : DataFrame) (n : String)
    (vs : List (Option ℚ))
    (hcol : df.lookup n = some (Column.numeric vs))
    (_hone : vs.countP (fun x => x.isNone) = 1)
    (hpres : vs.filterMap id ≠ []) :
    (fill_missing_values FillStrategy.mean none df).lookup n
      = some (Column.numeric (vs.map (fun x =>
          some (x.getD ((vs.filterMap id).sum / ((vs.filterMap id).length : ℚ)))))) ∧
    (∀ col, (fill_missing_values FillStrategy.mean none df).lookup n = some col →
      noMissing col = true) := by
  have hsel : ∀ p ∈ df, p.1 ∈ dfColumns df := fun p hp => List.mem_map.mpr ⟨p, hp, rfl⟩
  have hlk : (fill_missing_values FillStrategy.mean none df).lookup n
      = (df.lookup n).map fillNumericWithMean :=
    fillSelected_lookup_all df _ hsel n
  have hm : colMean vs
      = some ((vs.filterMap id).sum / ((vs.filterMap id).length : ℚ)) := by
    have hlen : (vs.filterMap id).length ≠ 0 := by
      simpa [List.length_eq_zero] using hpres
    simp [colMean, hlen]
  have hfill : fillNumericWithMean (Column.numeric vs)
      = Column.numeric (vs.map (fun x =>
          some (x.getD ((vs.filterMap id).sum / ((vs.filterMap id).length : ℚ))))) := by
    simp [fillNumericWithMean, hm]
  constructor
  · rw [hlk, hcol]
    simp [hfill]
  · intro col hc
    rw [hlk, hcol] at hc
    simp only [Option.map_some', hfill, Option.some.injEq] at hc
    subst hc
    simp only [noMissing, List.all_eq_true]
    intro y hy
    obtain ⟨x, _, rfl⟩ := List.mem_map.mp hy
    rfl

/-- Witness for C5 on the column [1, missing, 2]; the hole is filled with
the mean 3/2 of the present values. -/
theorem fill_mean_fills_with_mean_witness :
    ([("c", Column.numeric [some 1, none, some 2])] : DataFrame).lookup "c"
      = some (Column.numeric [some 1, none, some 2]) ∧
    ([some 1, none, some 2] : List (Option ℚ)).countP (fun x => x.isNone) = 1 ∧
    ([some 1, none, some 2] : List (Option ℚ)).filterMap id ≠ [] ∧
    (fill_missing_values FillStrategy.mean none
        [("c", Column.numeric [some 1, none, some 2])]).lookup "c"
      = some (Column.numeric (([some 1, none, some 2] : List (Option ℚ)).map (fun x =>
          some (x.getD ((([some 1, none, some 2] : List (Option ℚ)).filterMap id).sum
            / ((([some 1, none, some 2] : List (Option ℚ)).filterMap id).length : ℚ)))))) := by
  refine ⟨rfl, by decide, by decide, ?_⟩
  exact (fill_mean_fills_with_mean [("c", Column.numeric [some 1, none, some 2])]
    "c" [some 1, none, some 2] rfl (by decide) (by decide)).1

/-! ### Helper frame theorem -/

lemma runHelperOps_preserves (ops : List HelperOp) (hp : Heap) (ref r : Nat)
    (hne : r ≠ ref) : (runHelperOps ops hp ref).mem r = hp.mem r := by
  induction ops generalizing hp with
  | nil => rfl
  | cons op rest ih =>
    calc (runHelperOps (op :: rest) hp ref).mem r
        = (runHelperOps rest (helperStep hp ref op) ref).mem r := rfl
    _ = (helperStep hp ref op).mem r := ih _
    _ = hp.mem r := Function.update_noteq hne _ _

/-- C8: the helper constructor copies the caller dataset into a fresh
cell, and every sequence of chained mutator calls writes only that cell,
so the dataset at the caller reference is unchanged afterwards. -/
theorem helper_copy_preserves_caller (hp : Heap) (r : Nat) (ops : List HelperOp)
    (hr : r < hp.next) :
    (runHelperOps ops (helperInit hp r).1 (helperInit hp r).2).mem r = hp.mem r := by
  have hne : r ≠ hp.next := Nat.ne_of_lt hr
  have h1 := runHelperOps_preserves ops (helperInit hp r).1 (helperInit hp r).2 r hne
  rw [h1]
  show Function.update hp.mem hp.next (hp.mem r) r = hp.mem r
  exact Function.update_noteq hne _ _

/-- Witness for C8: one caller dataset, one mean-fill mutator. -/
theorem helper_copy_preserves_caller_witness :
    0 < demoHeap.next ∧
    (runHelperOps [HelperOp.fillMean none] (helperInit demoHeap 0).1
        (helperInit demoHeap 0).2).mem 0 = demoHeap.mem 0 :=
  ⟨by decide, helper_copy_preserves_caller demoHeap 0 [HelperOp.fillMean none] (by decide)⟩

/-! ### Fail-fast dispatch theorems -/

/-- C9: an unsupported synthetic-data type tag makes the column generator
return the unsupported-type value error (for any options), the full
generation aborts with an error when any declared column has such a tag
(no dataset is produced), and unknown test and keyword-method
names likewise produce immediate value errors. -/
theorem unknown_tags_value_error {α : Type} (p : FakeProvider α) (num_rows : Nat)
    (t test method : String)
    (ttest anova : String → String → α × α) (tfidfScores countScores : String → α)
    (column1 column2 text_column : String)
    (h1 : t ∉ supported_types)
    (h2 : test ∉ (["t-test", "anova"] : List String))
    (h3 : method ∉ (["tfidf", "count"] : List String)) :
    (∀ o : Options, generate_column_data p num_rows t o
        = Except.error ("Unsupported data type: " ++ t)) ∧
    (∀ cols : List (String × String × Options),
      (∃ nm o, (nm, t, o) ∈ cols) → ∃ e, generate p num_rows cols = Except.error e) ∧
    hypothesis_testing ttest anova column1 column2 test
      = Except.error ("Unknown test: " ++ test) ∧
    keyword_extraction tfidfScores countScores text_column method
      = Except.error ("Unknown method: " ++ method) := by
  simp only [supported_types, List.mem_cons, List.not_mem_nil, or_false, not_or] at h1 h2 h3
  obtain ⟨e1, e2, e3, e4, e5, e6, e7, e8, e9, e10, e11, e12⟩ := h1
  obtain ⟨f1, f2⟩ := h2
  obtain ⟨g1, g2⟩ := h3
  have hgen : ∀ o : Options, generate_column_data p num_rows t o
      = Except.error ("Unsupported data type: " ++ t) := by
    intro o
    simp [generate_column_data, e1, e2, e3, e4, e5, e6, e7, e8, e9, e10, e11, e12]
  refine ⟨hgen, ?_, ?_, ?_⟩
  · intro cols
    induction cols with
    | nil =>
      intro hex
      obtain ⟨nm, o, hmem⟩ := hex
      simp at hmem
    | cons hd rest ih =>
      intro hex
      obtain ⟨n2, t2, o2⟩ := hd
      obtain ⟨nm, o, hmem⟩ := hex
      rcases List.mem_cons.mp hmem with heq | hrest
      · have ht2 : t2 = t := by
          simp only [Prod.mk.injEq] at heq
          exact heq.2.1.symm
        subst ht2
        exact ⟨"Unsupported data type: " ++ t2, by simp [generate, hgen o2]⟩
      · cases hg : generate_column_data p num_rows t2 o2 with
        | error e0 => exact ⟨e0, by simp [generate, hg]⟩
        | ok col =>
          obtain ⟨e0, he0⟩ := ih ⟨nm, o, hrest⟩
          exact ⟨e0, by simp [generate, hg, he0]⟩
  · simp [hypothesis_testing, f1, f2]
  · simp [keyword_extraction, g1, g2]

/-- Witness for C9 with the unsupported tags complex, chi2 and rake. -/
theorem unknown_tags_value_error_witness :
    ("complex" ∉ supported_types) ∧
    ("chi2" ∉ (["t-test", "anova"] : List String)) ∧
    ("rake" ∉ (["tfidf", "count"] : List String)) ∧
    generate_column_data unitProvider 3 "complex" []
      = Except.error ("Unsupported data type: " ++ "complex") ∧
    hypothesis_testing (fun _ _ => ((), ())) (fun _ _ => ((), ())) "score" "age" "chi2"
      = Except.error ("Unknown test: " ++ "chi2") ∧
    keyword_extraction (fun _ => ()) (fun _ => ()) "review" "rake"
      = Except.error ("Unknown method: " ++ "rake") := by
  have h := unknown_tags_value_error unitProvider 3 "complex" "chi2" "rake"
    (fun _ _ => ((), ())) (fun _ _ => ((), ())) (fun _ => ()) (fun _ => ())
    "score" "age" "review" (by decide) (by decide) (by decide)
  exact ⟨by decide, by decide, by decide, h.1 [], h.2.2.1, h.2.2.2⟩

/-! ### Configuration theorem -/

/-- C10: for every stored configuration, `Config.get` returns the stored
value when both the section and the key are present, and the supplied
default otherwise, including when the whole section is absent; the
function is total, so it never raises. -/
theorem config_get_total {α : Type} (config_data : List (String × List (String × α)))
    (sect key : String) (dflt : α) :
    (∀ sec v, config_data.lookup sect = some sec → sec.lookup key = some v →
      Config.get config_data sect key dflt = v) ∧
    (config_data.lookup sect = none → Config.get config_data sect key dflt = dflt) ∧
    (∀ sec, config_data.lookup sect = some sec → sec.lookup key = none →
      Config.get config_data sect key dflt = dflt) := by
  refine ⟨?_, ?_, ?_⟩
  · intro sec v hs hk
    simp [Config.get, hs, hk]
  · intro hs
    simp [Config.get, hs]
  · intro sec hs hk
    simp [Config.get, hs, hk]

/-- Witness for C10: a present section and key return the stored value; an
absent section returns the default. -/
theorem config_get_total_witness :
    (demoConfig.lookup "logging" = some [("level", "INFO")] ∧
      ([("level", "INFO")] : List (String × String)).lookup "level" = some "INFO" ∧
      Config.get demoConfig "logging" "level" "DEBUG" = "INFO") ∧
    (demoConfig.lookup "missing" = none ∧
      Config.get demoConfig "missing" "level" "DEBUG" = "DEBUG") := by
  refine ⟨⟨by decide, by decide, ?_⟩, ⟨by decide, ?_⟩⟩
  · exact (config_get_total demoConfig "logging" "level" "DEBUG").1
      [("level", "INFO")] "INFO" (by decide) (by decide)
  · exact (config_get_total demoConfig "missing" "level" "DEBUG").2.1 (by decide)

end Plato
